import Mathlib

/-!
Shallow embedding of the task/withdrawal ledger core of `src/main.py`
(a Telegram review-task bot backed by Firestore).

Modelling conventions:
* Firestore collections (`users`, `tasks`, `withdrawals`, `seen_reviews`)
  become association lists keyed by document id, in document order.
* `firestore.Increment` on a field of an existing document becomes a pure
  functional update of that field (`updateA`); the code only ever runs the
  operations sequentially in the model, which is what the claims about
  sequential behaviour quantify over.
* A Firestore `.update` on a document that does not exist raises; every such
  call in the source is wrapped in a `try/except: pass` (or the claims only
  exercise it on existing documents), so `updateA` on an absent key is a
  no-op.
* Python floats carrying money become `Rat`; timestamps become `Int`
  (seconds), local times of day become `Nat` (minutes since midnight) —
  `datetime` comparisons translate to the linear order.
* Telegram / Play-Store I/O is ignored except that each outbound message
  bumps a `notifications` counter, so "no notification was produced" is
  expressible as state equality.
-/

set_option linter.unusedVariables false

namespace ReviewWork

/-- Status of a task or withdrawal record: the three strings the code ever
stores in a `status` field: "pending", "approved", "rejected". -/
inductive Status
  | pending
  | approved
  | rejected
deriving DecidableEq, BEq, Repr

/-- A user document as `create_user` (main.py:181) writes it.  `balance` and
`total_tasks` are only ever changed through `firestore.Increment`;
`web_password` / `device_id` are the web-login fields, created empty and
irrelevant to the ledger. -/
structure User where
  name : String
  balance : Rat
  total_tasks : Int
  joined_at : Int := 0
  referrer : Option String
  is_blocked : Bool
  is_admin : Bool
  web_password : String := ""
  device_id : String := ""
deriving DecidableEq, Repr

/-- A task document as `save_task` (main.py:593) creates it and the two
resolution paths update it.  `approved_at` and `processed_by` are fields
only ever added by a resolution (`none` = the field is absent from the
document).  `auto_approved` models the spec's `autoApproved` flag as a
Firestore field: no code path in `src/main.py` ever writes such a field,
so it is `none` (absent) at creation and stays `none` forever. -/
structure Task where
  user_id : String
  app_id : String
  review_name : String
  email : String
  device : String
  screenshot : String
  status : Status
  submitted_at : Int
  price : Rat
  approved_at : Option Int := none
  processed_by : Option String := none
  auto_approved : Option Bool := none
deriving DecidableEq, Repr

/-- A withdrawal document as `withdraw_amount` (main.py:399) creates it. -/
structure Withdrawal where
  user_id : String
  user_name : String
  amount : Rat
  method : String
  number : String
  status : Status
  time : Int
  processed_by : Option String := none
deriving DecidableEq, Repr

/-- One Play-Store review as `run_automation` (main.py:686) receives it from
`google_play_scraper`. -/
structure Review where
  reviewId : String
  userName : String
  score : Nat
  content : String
  at_time : Int
deriving DecidableEq, Repr

/-- The money-relevant fields of the config snapshot `get_config` returns
(DEFAULT_CONFIG, main.py:83).  The remaining fields (texts, buttons,
monitored-app list, working hours) do not enter the ledger operations
modelled here; working hours are modelled by `is_working_hour` directly on
parsed times. -/
structure Config where
  task_price : Rat
  referral_bonus : Rat
  min_withdraw : Rat
deriving DecidableEq, Repr

/-- The database state: the four Firestore collections the ledger core
touches, plus a counter of outbound notification messages. -/
structure DB where
  users : List (String × User)
  tasks : List (String × Task)
  withdrawals : List (String × Withdrawal)
  seen : List String
  notifications : Nat
deriving DecidableEq, Repr

/-- Document lookup by id (first occurrence). -/
def lookupA {α : Type} : List (String × α) → String → Option α
  | [], _ => none
  | (k, v) :: rest, k2 => if k = k2 then some v else lookupA rest k2

/-- Firestore `.update` on document `k2`: rewrite the first record with that
key through `f`; a no-op when the document is absent (the source wraps every
such call in try/except or only reaches it when the document exists). -/
def updateA {α : Type} : List (String × α) → String → (α → α) → List (String × α)
  | [], _, _ => []
  | (k, v) :: rest, k2, f =>
    if k = k2 then (k, f v) :: rest else (k, v) :: updateA rest k2 f

/-- Python `str.isdigit` restricted to ASCII decimal digits: nonempty and
all digits. -/
def pyIsDigit (s : String) : Bool := !s.isEmpty && s.all Char.isDigit

/-- The referrer validity test of `create_user` (main.py:190/199):
`referrer_id and referrer_id.isdigit() and str(referrer_id) != str(user_id)`. -/
def validReferrer (uid : String) (referrer_id : Option String) : Bool :=
  match referrer_id with
  | some rid => pyIsDigit rid && !(rid == uid)
  | none => false

/-- `is_admin` (main.py:167): the owner id, or a user document whose
`is_admin` field is true. -/
def is_admin (owner_id uid : String) (users : List (String × User)) : Bool :=
  if uid = owner_id then true
  else
    match lookupA users uid with
    | some u => u.is_admin
    | none => false

/-- `create_user` (main.py:181): a no-op when the user document already
exists; otherwise create the document (balance 0, referrer recorded only
when valid) and, when the referral argument is a valid digit-string id
different from the new user's and the configured bonus is positive, credit
`referral_bonus` to the referrer's balance.  A referrer id with no user
document makes the Firestore update raise, swallowed by the bare
`except: pass`, hence `updateA`'s no-op on an absent key. -/
def create_user (owner_id uid first_name : String) (referrer_id : Option String)
    (now : Int) (cfg : Config) (users : List (String × User)) :
    List (String × User) :=
  match lookupA users uid with
  | some _ => users
  | none =>
    let newU : User :=
      { name := first_name
        balance := 0
        total_tasks := 0
        joined_at := now
        referrer := if validReferrer uid referrer_id then referrer_id else none
        is_blocked := false
        is_admin := uid == owner_id }
    let users1 := users ++ [(uid, newU)]
    match referrer_id with
    | some rid =>
      if pyIsDigit rid = true ∧ rid ≠ uid ∧ 0 < cfg.referral_bonus then
        updateA users1 rid (fun u => { u with balance := u.balance + cfg.referral_bonus })
      else users1
    | none => users1

/-- `save_task` (main.py:593): append a new pending task document whose
`price` field snapshots `config['task_price']` at submission time. -/
def save_task (uid tid app_id review_name email device screenshot : String)
    (now : Int) (cfg : Config) (tasks : List (String × Task)) :
    List (String × Task) :=
  tasks ++ [(tid,
    { user_id := uid
      app_id := app_id
      review_name := review_name
      email := email
      device := device
      screenshot := screenshot
      status := Status.pending
      submitted_at := now
      price := cfg.task_price })]

/-- How a manual approve/reject callback ends, as the operator sees it:
refused (non-admin), record missing, precondition failure reported as
"already processed" with the observed status, or carried out. -/
inductive ActionOutcome
  | notAdmin
  | notFound
  | alreadyProcessed (s : Status)
  | done
deriving DecidableEq, Repr

/-- The two manual task actions (`t_apr_…` / `t_rej_…` callback data). -/
inductive TAction
  | apr
  | rej
deriving DecidableEq, Repr

/-- The two manual withdrawal actions (`wd_apr_…` / `wd_rej_…`). -/
inductive WAction
  | apr
  | rej
deriving DecidableEq, Repr

/-- `handle_task_action` (main.py:632): admin gate, fetch the task, report
non-pending as already processed with no mutation; approving sets
`status`/`approved_at` and credits the stored `price` (plus one
`total_tasks`) to the user id carried in the callback data; rejecting sets
`status`/`processed_by` only.  Each carried-out action also sends one
message to the task owner. -/
def handle_task_action (owner_id actor : String) (action : TAction)
    (task_id uid : String) (now : Int) (st : DB) : DB × ActionOutcome :=
  if is_admin owner_id actor st.users = false then (st, ActionOutcome.notAdmin)
  else
    match lookupA st.tasks task_id with
    | none => (st, ActionOutcome.notFound)
    | some t =>
      if t.status ≠ Status.pending then (st, ActionOutcome.alreadyProcessed t.status)
      else
        match action with
        | TAction.apr =>
          ({ st with
              tasks := updateA st.tasks task_id
                (fun t0 => { t0 with status := Status.approved, approved_at := some now })
              users := updateA st.users uid
                (fun u => { u with balance := u.balance + t.price,
                                   total_tasks := u.total_tasks + 1 })
              notifications := st.notifications + 1 }, ActionOutcome.done)
        | TAction.rej =>
          ({ st with
              tasks := updateA st.tasks task_id
                (fun t0 => { t0 with status := Status.rejected, processed_by := some actor })
              notifications := st.notifications + 1 }, ActionOutcome.done)

/-- How `withdraw_amount` ends, as the user sees it: below the configured
minimum, not enough balance, a swallowed exception (e.g. no user document),
or request created. -/
inductive WOutcome
  | belowMin
  | insufficient
  | failed
  | ok
deriving DecidableEq, Repr

/-- `withdraw_amount` (main.py:380): guard `amount >= min_withdraw` and
`amount <= balance`, then debit the balance and append a pending withdrawal
document in the same step (escrow), plus one log message. -/
def withdraw_amount (uid user_name wid method number : String) (amount : Rat)
    (now : Int) (cfg : Config) (st : DB) : DB × WOutcome :=
  if amount < cfg.min_withdraw then (st, WOutcome.belowMin)
  else
    match lookupA st.users uid with
    | none => (st, WOutcome.failed)
    | some u =>
      if u.balance < amount then (st, WOutcome.insufficient)
      else
        ({ st with
            users := updateA st.users uid
              (fun v => { v with balance := v.balance - amount })
            withdrawals := st.withdrawals ++ [(wid,
              { user_id := uid
                user_name := user_name
                amount := amount
                method := method
                number := number
                status := Status.pending
                time := now })]
            notifications := st.notifications + 1 }, WOutcome.ok)

/-- `handle_withdrawal_action` (main.py:432): admin gate, fetch the request,
report non-pending as "Already processed" with no mutation; approving sets
`status`/`processed_by` and touches no balance; rejecting sets
`status`/`processed_by` and re-credits `amount` to the user id carried in
the callback data.  Each carried-out action sends one message to the user. -/
def handle_withdrawal_action (owner_id actor : String) (action : WAction)
    (wd_id uid : String) (st : DB) : DB × ActionOutcome :=
  if is_admin owner_id actor st.users = false then (st, ActionOutcome.notAdmin)
  else
    match lookupA st.withdrawals wd_id with
    | none => (st, ActionOutcome.notFound)
    | some w =>
      if w.status ≠ Status.pending then (st, ActionOutcome.alreadyProcessed w.status)
      else
        match action with
        | WAction.apr =>
          ({ st with
              withdrawals := updateA st.withdrawals wd_id
                (fun w0 => { w0 with status := Status.approved, processed_by := some actor })
              notifications := st.notifications + 1 }, ActionOutcome.done)
        | WAction.rej =>
          ({ st with
              withdrawals := updateA st.withdrawals wd_id
                (fun w0 => { w0 with status := Status.rejected, processed_by := some actor })
              users := updateA st.users uid
                (fun u => { u with balance := u.balance + w.amount })
              notifications := st.notifications + 1 }, ActionOutcome.done)

/-- The admin balance conversation's two buttons (`u_add_bal` / `u_cut_bal`,
main.py:941). -/
inductive BalAction
  | add
  | cut
deriving DecidableEq, Repr

/-- `user_balance_update` (main.py:945): an unguarded
`firestore.Increment(val)` on the balance, `val = amt` for add and `-amt`
for cut; no check against the current balance. -/
def user_balance_update (uid : String) (amt : Rat) (action : BalAction)
    (users : List (String × User)) : List (String × User) :=
  let val : Rat := match action with | BalAction.add => amt | BalAction.cut => -amt
  updateA users uid (fun u => { u with balance := u.balance + val })

/-- `is_working_hour` (main.py:151) on parsed times (minutes since
midnight): `start <= now <= end` when `start < end`, otherwise (the window
wraps midnight, or `start = end`) `now >= start or now <= end`. -/
def is_working_hour (work_start work_end now : Nat) : Bool :=
  if work_start < work_end then decide (work_start ≤ now) && decide (now ≤ work_end)
  else decide (now ≥ work_start) || decide (now ≤ work_end)

/-- Python `str.lower` (ASCII model): lowercase every character. -/
def pyLower (s : String) : String := ⟨s.data.map Char.toLower⟩

/-- Python `str.strip`: drop leading and trailing whitespace. -/
def pyStrip (s : String) : String :=
  ⟨((s.data.dropWhile Char.isWhitespace).reverse.dropWhile Char.isWhitespace).reverse⟩

/-- The matching test of the automation loop (main.py:714-718): a pending
task of the monitored app whose `review_name`, lowercased then stripped
(`td['review_name'].lower().strip()`), equals the reviewer's display name
lowercased then stripped. -/
def matchesReview (app_id reviewer : String) (t : Task) : Bool :=
  t.app_id == app_id && decide (t.status = Status.pending)
    && (pyStrip (pyLower t.review_name) == pyStrip (pyLower reviewer))

/-- The `for t in p_tasks: … break` scan (main.py:715-735): the first task
document, in collection order, that matches the review. -/
def findMatch (app_id reviewer : String) :
    List (String × Task) → Option (String × Task)
  | [] => none
  | (tid, t) :: rest =>
    if matchesReview app_id reviewer t then some (tid, t)
    else findMatch app_id reviewer rest

/-- One review of one monitored app inside `run_automation`'s cycle
(main.py:687-735): skip a review older than 48 hours outright; skip a seen
review; otherwise send the log notification, record the review as seen,
and — only when the rating is exactly 5 — approve the first matching
pending task with the same compound update and atomic increments as the
manual approval path (two further messages go out on approval). -/
def processReview (now : Int) (app_id : String) (r : Review) (st : DB) : DB :=
  if r.at_time < now - 48 * 3600 then st
  else if r.reviewId ∈ st.seen then st
  else
    let st1 : DB :=
      { st with notifications := st.notifications + 1, seen := r.reviewId :: st.seen }
    if r.score = 5 then
      match findMatch app_id r.userName st1.tasks with
      | some (tid, t) =>
        { st1 with
            tasks := updateA st1.tasks tid
              (fun t0 => { t0 with status := Status.approved, approved_at := some now })
            users := updateA st1.users t.user_id
              (fun u => { u with balance := u.balance + t.price,
                                 total_tasks := u.total_tasks + 1 })
            notifications := st1.notifications + 2 }
      | none => st1
    else st1

/-- The inner review loop of one cycle for one app, newest-first list as
fetched (main.py:687). -/
def processReviews (now : Int) (app_id : String) (rs : List Review) (st : DB) : DB :=
  rs.foldl (fun s r => processReview now app_id r s) st

/-- One full cycle of `run_automation` (main.py:679-737): every monitored
app with the review list fetched for it, in order. -/
def runCycle (now : Int) (apps : List (String × List Review)) (st : DB) : DB :=
  apps.foldl (fun s p => processReviews now p.1 p.2 s) st

/-- One sequential operation of the core, tagged with the config snapshot
the triggering handler read (`get_config()` at the start of each handler). -/
inductive Op
  | opCreateUser (uid first_name : String) (ref : Option String) (now : Int) (cfg : Config)
  | opSaveTask (uid tid app_id rname email device screenshot : String) (now : Int) (cfg : Config)
  | opTaskAction (actor : String) (a : TAction) (tid uid : String) (now : Int)
  | opWithdraw (uid user_name wid method number : String) (amount : Rat) (now : Int) (cfg : Config)
  | opWdAction (actor : String) (a : WAction) (wid uid : String)
  | opReconcile (now : Int) (apps : List (String × List Review))
  | opBalUpdate (uid : String) (amt : Rat) (a : BalAction)
deriving DecidableEq

/-- Run one sequential operation against the state. -/
def applyOp (owner_id : String) (st : DB) : Op → DB
  | Op.opCreateUser uid fn ref now cfg =>
    { st with users := create_user owner_id uid fn ref now cfg st.users }
  | Op.opSaveTask uid tid app rname email device screenshot now cfg =>
    { st with tasks := save_task uid tid app rname email device screenshot now cfg st.tasks }
  | Op.opTaskAction actor a tid uid now =>
    (handle_task_action owner_id actor a tid uid now st).1
  | Op.opWithdraw uid un wid m n amount now cfg =>
    (withdraw_amount uid un wid m n amount now cfg st).1
  | Op.opWdAction actor a wid uid =>
    (handle_withdrawal_action owner_id actor a wid uid st).1
  | Op.opReconcile now apps => runCycle now apps st
  | Op.opBalUpdate uid amt a =>
    { st with users := user_balance_update uid amt a st.users }

/-- Run a sequence of non-overlapping operations. -/
def applyOps (owner_id : String) (ops : List Op) (st : DB) : DB :=
  ops.foldl (applyOp owner_id) st

/-- The operations of the claimed balance invariant once amended: everything
except the unguarded admin balance adjustment, under config snapshots with
a non-negative task price and withdrawal minimum. -/
def goodOp : Op → Bool
  | Op.opSaveTask _ _ _ _ _ _ _ _ cfg => decide (0 ≤ cfg.task_price)
  | Op.opWithdraw _ _ _ _ _ _ _ cfg => decide (0 ≤ cfg.min_withdraw)
  | Op.opBalUpdate _ _ _ => false
  | _ => true

/-- Every stored user balance is non-negative. -/
def usersNonneg (l : List (String × User)) : Prop :=
  ∀ p ∈ l, 0 ≤ (Prod.snd p).balance

/-- Every stored task price is non-negative. -/
def taskPricesNonneg (l : List (String × Task)) : Prop :=
  ∀ p ∈ l, 0 ≤ (Prod.snd p).price

/-- Every stored withdrawal amount is non-negative. -/
def wdAmountsNonneg (l : List (String × Withdrawal)) : Prop :=
  ∀ p ∈ l, 0 ≤ (Prod.snd p).amount

/-- The state-wide non-negativity invariant of claim C8. -/
def nonnegState (st : DB) : Prop :=
  usersNonneg st.users ∧ taskPricesNonneg st.tasks ∧ wdAmountsNonneg st.withdrawals

/-- Every task visible after is a task visible before with the same price. -/
def pricesPreserved (before after : List (String × Task)) : Prop :=
  ∀ k t2, lookupA after k = some t2 →
    ∃ t1, lookupA before k = some t1 ∧ t2.price = t1.price

/-- A task seen as rejected after was already rejected before. -/
def noNewRejections (before after : List (String × Task)) : Prop :=
  ∀ k t2, lookupA after k = some t2 → t2.status = Status.rejected →
    ∃ t1, lookupA before k = some t1 ∧ t1.status = Status.rejected

/-! ### Association-list lemmas -/

theorem lookupA_updateA {α : Type} (l : List (String × α)) (k : String)
    (f : α → α) (k2 : String) :
    lookupA (updateA l k f) k2 =
      if k = k2 then (lookupA l k).map f else lookupA l k2 := by
  induction l with
  | nil => simp [lookupA, updateA]
  | cons hd rest ih =>
    obtain ⟨k1, v⟩ := hd
    by_cases h1 : k1 = k
    · subst h1
      by_cases h2 : k1 = k2
      · subst h2; simp [lookupA, updateA]
      · simp [lookupA, updateA, h2]
    · by_cases h2 : k1 = k2
      · subst h2
        have hne : k ≠ k1 := fun h => h1 h.symm
        simp [lookupA, updateA, h1, hne]
      · simp [lookupA, updateA, h1, h2, ih]

theorem lookupA_append {α : Type} (l1 l2 : List (String × α)) (k : String) :
    lookupA (l1 ++ l2) k =
      match lookupA l1 k with
      | some v => some v
      | none => lookupA l2 k := by
  induction l1 with
  | nil => simp [lookupA]
  | cons hd rest ih =>
    obtain ⟨k1, v⟩ := hd
    by_cases h1 : k1 = k
    · simp [lookupA, h1]
    · simp [lookupA, h1, ih]

theorem lookupA_append_of_none {α : Type} {l1 : List (String × α)} {k : String}
    (l2 : List (String × α)) (h : lookupA l1 k = none) :
    lookupA (l1 ++ l2) k = lookupA l2 k := by
  rw [lookupA_append, h]

theorem lookupA_singleton {α : Type} (k : String) (v : α) :
    lookupA [(k, v)] k = some v := by
  simp [lookupA]

theorem mem_updateA {α : Type} {l : List (String × α)} {k : String}
    {f : α → α} {x : String × α} (h : x ∈ updateA l k f) :
    x ∈ l ∨ ∃ v, lookupA l k = some v ∧ x = (k, f v) := by
  induction l with
  | nil => simp [updateA] at h
  | cons hd rest ih =>
    obtain ⟨k1, v1⟩ := hd
    by_cases h1 : k1 = k
    · subst h1
      simp only [updateA, if_pos rfl] at h
      rcases List.mem_cons.mp h with h | h
      · exact Or.inr ⟨v1, by simp [lookupA], h⟩
      · exact Or.inl (List.mem_cons_of_mem _ h)
    · simp only [updateA, if_neg h1] at h
      rcases List.mem_cons.mp h with h | h
      · exact Or.inl (h ▸ List.mem_cons_self _ _)
      · rcases ih h with h | ⟨v, hv, hx⟩
        · exact Or.inl (List.mem_cons_of_mem _ h)
        · exact Or.inr ⟨v, by simp [lookupA, h1, hv], hx⟩

theorem lookupA_mem {α : Type} {l : List (String × α)} {k : String} {v : α}
    (h : lookupA l k = some v) : (k, v) ∈ l := by
  induction l with
  | nil => simp [lookupA] at h
  | cons hd rest ih =>
    obtain ⟨k1, v1⟩ := hd
    by_cases h1 : k1 = k
    · subst h1
      simp [lookupA] at h
      simp [h]
    · simp [lookupA, h1] at h
      exact List.mem_cons_of_mem _ (ih h)

theorem lookupA_of_mem_nodup {α : Type} {l : List (String × α)} {k : String}
    {v : α} (hnd : (l.map Prod.fst).Nodup) (h : (k, v) ∈ l) :
    lookupA l k = some v := by
  induction l with
  | nil => simp at h
  | cons hd rest ih =>
    obtain ⟨k1, v1⟩ := hd
    simp only [List.map_cons, List.nodup_cons] at hnd
    rcases List.mem_cons.mp h with h | h
    · obtain ⟨hk, hv⟩ := Prod.mk.injEq .. ▸ h
      cases h
      simp [lookupA]
    · have hk1 : k1 ≠ k := by
        intro he
        subst he
        exact hnd.1 (List.mem_map.mpr ⟨(k1, v), h, rfl⟩)
      simp [lookupA, hk1]
      exact ih hnd.2 h

theorem pricesPreserved_refl (l : List (String × Task)) : pricesPreserved l l :=
  fun k t2 h => ⟨t2, h, rfl⟩

theorem pricesPreserved_trans {a b c : List (String × Task)}
    (h1 : pricesPreserved a b) (h2 : pricesPreserved b c) : pricesPreserved a c := by
  intro k t3 h3
  obtain ⟨t2, hb, hp2⟩ := h2 k t3 h3
  obtain ⟨t1, ha, hp1⟩ := h1 k t2 hb
  exact ⟨t1, ha, hp2.trans hp1⟩

theorem pricesPreserved_updateA (l : List (String × Task)) (k : String)
    (f : Task → Task) (hf : ∀ t, (f t).price = t.price) :
    pricesPreserved l (updateA l k f) := by
  intro k2 t2 h2
  rw [lookupA_updateA] at h2
  by_cases hk : k = k2
  · rw [if_pos hk] at h2
    cases hl : lookupA l k with
    | none => rw [hl] at h2; simp at h2
    | some t1 =>
      rw [hl] at h2
      simp only [Option.map_some'] at h2
      injection h2 with h2
      refine ⟨t1, hk ▸ hl, ?_⟩
      rw [← h2]
      exact hf t1
  · rw [if_neg hk] at h2
    exact ⟨t2, h2, rfl⟩

theorem noNewRejections_refl (l : List (String × Task)) : noNewRejections l l :=
  fun k t2 h hr => ⟨t2, h, hr⟩

theorem noNewRejections_trans {a b c : List (String × Task)}
    (h1 : noNewRejections a b) (h2 : noNewRejections b c) : noNewRejections a c := by
  intro k t3 h3 hr
  obtain ⟨t2, hb, hr2⟩ := h2 k t3 h3 hr
  exact h1 k t2 hb hr2

theorem noNewRejections_updateA (l : List (String × Task)) (k : String)
    (f : Task → Task) (hf : ∀ t, (f t).status ≠ Status.rejected) :
    noNewRejections l (updateA l k f) := by
  intro k2 t2 h2 hr
  rw [lookupA_updateA] at h2
  by_cases hk : k = k2
  · rw [if_pos hk] at h2
    cases hl : lookupA l k with
    | none => rw [hl] at h2; simp at h2
    | some t1 =>
      rw [hl] at h2
      simp only [Option.map_some'] at h2
      injection h2 with h2
      rw [← h2] at hr
      exact absurd hr (hf t1)
  · rw [if_neg hk] at h2
    exact ⟨t2, h2, hr⟩

/-! ### findMatch lemmas -/

theorem findMatch_mem {app_id reviewer : String} {l : List (String × Task)}
    {tid : String} {t : Task} (h : findMatch app_id reviewer l = some (tid, t)) :
    (tid, t) ∈ l ∧ matchesReview app_id reviewer t = true := by
  induction l with
  | nil => simp [findMatch] at h
  | cons hd rest ih =>
    obtain ⟨k1, t1⟩ := hd
    by_cases hm : matchesReview app_id reviewer t1
    · simp [findMatch, hm] at h
      obtain ⟨h1, h2⟩ := h
      subst h1; subst h2
      exact ⟨List.mem_cons_self _ _, hm⟩
    · simp [findMatch, hm] at h
      obtain ⟨h1, h2⟩ := ih h
      exact ⟨List.mem_cons_of_mem _ h1, h2⟩

theorem matchesReview_pending {app_id reviewer : String} {t : Task}
    (h : matchesReview app_id reviewer t = true) : t.status = Status.pending := by
  simp only [matchesReview, Bool.and_eq_true, beq_iff_eq, decide_eq_true_eq] at h
  exact h.1.2

theorem matchesReview_app {app_id reviewer : String} {t : Task}
    (h : matchesReview app_id reviewer t = true) : t.app_id = app_id := by
  simp only [matchesReview, Bool.and_eq_true, beq_iff_eq, decide_eq_true_eq] at h
  exact h.1.1

theorem findMatch_lookupA {app_id reviewer : String} {l : List (String × Task)}
    {tid : String} {t : Task} (hnd : (l.map Prod.fst).Nodup)
    (h : findMatch app_id reviewer l = some (tid, t)) :
    lookupA l tid = some t :=
  lookupA_of_mem_nodup hnd (findMatch_mem h).1

/-! ### is_admin stability -/

theorem is_admin_updateA (owner_id actor k : String)
    (users : List (String × User)) (f : User → User)
    (hf : ∀ u, (f u).is_admin = u.is_admin) :
    is_admin owner_id actor (updateA users k f) = is_admin owner_id actor users := by
  unfold is_admin
  by_cases h1 : actor = owner_id
  · simp [h1]
  · rw [if_neg h1, if_neg h1, lookupA_updateA]
    by_cases h2 : k = actor
    · subst h2
      rw [if_pos rfl]
      cases hl : lookupA users k with
      | none => rfl
      | some u => simp [hf]
    · rw [if_neg h2]

/-! ### Shape of one reconciliation step on the task store -/

theorem processReview_tasks_shape (now : Int) (app_id : String) (r : Review)
    (st : DB) :
    (processReview now app_id r st).tasks = st.tasks ∨
      ∃ tid, (processReview now app_id r st).tasks =
        updateA st.tasks tid
          (fun t0 => { t0 with status := Status.approved, approved_at := some now }) := by
  unfold processReview
  split
  · exact Or.inl rfl
  split
  · exact Or.inl rfl
  split
  · dsimp only
    split
    · exact Or.inr ⟨_, rfl⟩
    · exact Or.inl rfl
  · exact Or.inl rfl

theorem pricesPreserved_processReview (now : Int) (app_id : String) (r : Review)
    (st : DB) : pricesPreserved st.tasks (processReview now app_id r st).tasks := by
  rcases processReview_tasks_shape now app_id r st with h | ⟨tid, h⟩
  · rw [h]; exact pricesPreserved_refl _
  · rw [h]; exact pricesPreserved_updateA _ _ _ (fun t => rfl)

theorem noNewRejections_processReview (now : Int) (app_id : String) (r : Review)
    (st : DB) : noNewRejections st.tasks (processReview now app_id r st).tasks := by
  rcases processReview_tasks_shape now app_id r st with h | ⟨tid, h⟩
  · rw [h]; exact noNewRejections_refl _
  · rw [h]
    exact noNewRejections_updateA _ _ _ (fun t => by simp)

theorem pricesPreserved_processReviews (now : Int) (app_id : String)
    (rs : List Review) (st : DB) :
    pricesPreserved st.tasks (processReviews now app_id rs st).tasks := by
  induction rs generalizing st with
  | nil => exact pricesPreserved_refl _
  | cons r rs ih =>
    exact pricesPreserved_trans (pricesPreserved_processReview now app_id r st)
      (ih (processReview now app_id r st))

theorem noNewRejections_processReviews (now : Int) (app_id : String)
    (rs : List Review) (st : DB) :
    noNewRejections st.tasks (processReviews now app_id rs st).tasks := by
  induction rs generalizing st with
  | nil => exact noNewRejections_refl _
  | cons r rs ih =>
    exact noNewRejections_trans (noNewRejections_processReview now app_id r st)
      (ih (processReview now app_id r st))

theorem pricesPreserved_runCycle (now : Int) (apps : List (String × List Review))
    (st : DB) : pricesPreserved st.tasks (runCycle now apps st).tasks := by
  induction apps generalizing st with
  | nil => exact pricesPreserved_refl _
  | cons p apps ih =>
    exact pricesPreserved_trans (pricesPreserved_processReviews now p.1 p.2 st)
      (ih (processReviews now p.1 p.2 st))

theorem noNewRejections_runCycle (now : Int) (apps : List (String × List Review))
    (st : DB) : noNewRejections st.tasks (runCycle now apps st).tasks := by
  induction apps generalizing st with
  | nil => exact noNewRejections_refl _
  | cons p apps ih =>
    exact noNewRejections_trans (noNewRejections_processReviews now p.1 p.2 st)
      (ih (processReviews now p.1 p.2 st))

theorem pricesPreserved_handle_task_action (owner_id actor : String)
    (action : TAction) (task_id uid : String) (now : Int) (st : DB) :
    pricesPreserved st.tasks
      (handle_task_action owner_id actor action task_id uid now st).1.tasks := by
  unfold handle_task_action
  split
  · exact pricesPreserved_refl _
  split
  · exact pricesPreserved_refl _
  split
  · exact pricesPreserved_refl _
  split
  · exact pricesPreserved_updateA _ _ _ (fun t0 => rfl)
  · exact pricesPreserved_updateA _ _ _ (fun t0 => rfl)

/-! ### Non-negativity machinery (claim C8) -/

theorem usersNonneg_updateA {users : List (String × User)} {k : String}
    {f : User → User} (h : usersNonneg users)
    (hf : ∀ v, lookupA users k = some v → 0 ≤ (f v).balance) :
    usersNonneg (updateA users k f) := by
  intro p hp
  rcases mem_updateA hp with hp | ⟨v, hv, hx⟩
  · exact h p hp
  · subst hx
    exact hf v hv

theorem usersNonneg_credit {users : List (String × User)} {k : String}
    {c : Rat} (h : usersNonneg users) (hc : 0 ≤ c) :
    usersNonneg (updateA users k (fun u => { u with balance := u.balance + c })) := by
  apply usersNonneg_updateA h
  intro v hv
  exact add_nonneg (h _ (lookupA_mem hv)) hc

theorem usersNonneg_append {users : List (String × User)} {k : String}
    {v : User} (h : usersNonneg users) (hv : 0 ≤ v.balance) :
    usersNonneg (users ++ [(k, v)]) := by
  intro p hp
  rcases List.mem_append.mp hp with hp | hp
  · exact h p hp
  · simp at hp
    rw [hp]
    exact hv

theorem taskPricesNonneg_updateA {l : List (String × Task)} {k : String}
    {f : Task → Task} (h : taskPricesNonneg l) (hf : ∀ t, (f t).price = t.price) :
    taskPricesNonneg (updateA l k f) := by
  intro p hp
  rcases mem_updateA hp with hp | ⟨v, hv, hx⟩
  · exact h p hp
  · subst hx
    have := h (k, v) (lookupA_mem hv)
    simpa [hf] using this

theorem taskPricesNonneg_append {l : List (String × Task)} {k : String}
    {t : Task} (h : taskPricesNonneg l) (ht : 0 ≤ t.price) :
    taskPricesNonneg (l ++ [(k, t)]) := by
  intro p hp
  rcases List.mem_append.mp hp with hp | hp
  · exact h p hp
  · simp at hp
    rw [hp]
    exact ht

theorem wdAmountsNonneg_updateA {l : List (String × Withdrawal)} {k : String}
    {f : Withdrawal → Withdrawal} (h : wdAmountsNonneg l)
    (hf : ∀ w, (f w).amount = w.amount) : wdAmountsNonneg (updateA l k f) := by
  intro p hp
  rcases mem_updateA hp with hp | ⟨v, hv, hx⟩
  · exact h p hp
  · subst hx
    have := h (k, v) (lookupA_mem hv)
    simpa [hf] using this

theorem wdAmountsNonneg_append {l : List (String × Withdrawal)} {k : String}
    {w : Withdrawal} (h : wdAmountsNonneg l) (hw : 0 ≤ w.amount) :
    wdAmountsNonneg (l ++ [(k, w)]) := by
  intro p hp
  rcases List.mem_append.mp hp with hp | hp
  · exact h p hp
  · simp at hp
    rw [hp]
    exact hw

theorem nonnegState_create_user (owner_id uid fn : String) (ref : Option String)
    (now : Int) (cfg : Config) (st : DB) (h : nonnegState st) :
    nonnegState { st with users := create_user owner_id uid fn ref now cfg st.users } := by
  obtain ⟨hu, ht, hw⟩ := h
  refine ⟨?_, ht, hw⟩
  show usersNonneg (create_user owner_id uid fn ref now cfg st.users)
  unfold create_user
  split
  · exact hu
  · dsimp only
    have hbase : usersNonneg (st.users ++ [(uid,
        { name := fn, balance := 0, total_tasks := 0, joined_at := now,
          referrer := if validReferrer uid ref then ref else none,
          is_blocked := false, is_admin := uid == owner_id })]) :=
      usersNonneg_append hu le_rfl
    split
    · split
      · next hcond => exact usersNonneg_credit hbase (le_of_lt hcond.2.2)
      · exact hbase
    · exact hbase

theorem nonnegState_save_task (uid tid app_id rname email device screenshot : String)
    (now : Int) (cfg : Config) (st : DB) (hp : 0 ≤ cfg.task_price)
    (h : nonnegState st) :
    nonnegState { st with
      tasks := save_task uid tid app_id rname email device screenshot now cfg st.tasks } := by
  obtain ⟨hu, ht, hw⟩ := h
  exact ⟨hu, taskPricesNonneg_append ht hp, hw⟩

theorem nonnegState_handle_task_action (owner_id actor : String) (a : TAction)
    (tid uid : String) (now : Int) (st : DB) (h : nonnegState st) :
    nonnegState (handle_task_action owner_id actor a tid uid now st).1 := by
  obtain ⟨hu, ht, hw⟩ := h
  unfold handle_task_action
  by_cases hadm : is_admin owner_id actor st.users = false
  · rw [if_pos hadm]; exact ⟨hu, ht, hw⟩
  · rw [if_neg hadm]
    cases hlook : lookupA st.tasks tid with
    | none => exact ⟨hu, ht, hw⟩
    | some t =>
      dsimp only
      by_cases hpend : t.status ≠ Status.pending
      · rw [if_pos hpend]; exact ⟨hu, ht, hw⟩
      · rw [if_neg hpend]
        cases a with
        | apr =>
          refine ⟨?_, taskPricesNonneg_updateA ht (fun t0 => rfl), hw⟩
          apply usersNonneg_updateA hu
          intro v hv
          exact add_nonneg (hu _ (lookupA_mem hv)) (ht _ (lookupA_mem hlook))
        | rej => exact ⟨hu, taskPricesNonneg_updateA ht (fun t0 => rfl), hw⟩

theorem nonnegState_withdraw_amount (uid un wid m n : String) (amount : Rat)
    (now : Int) (cfg : Config) (st : DB) (hmin : 0 ≤ cfg.min_withdraw)
    (h : nonnegState st) :
    nonnegState (withdraw_amount uid un wid m n amount now cfg st).1 := by
  obtain ⟨hu, ht, hw⟩ := h
  unfold withdraw_amount
  by_cases h1 : amount < cfg.min_withdraw
  · rw [if_pos h1]; exact ⟨hu, ht, hw⟩
  · rw [if_neg h1]
    cases hlook : lookupA st.users uid with
    | none => exact ⟨hu, ht, hw⟩
    | some u =>
      dsimp only
      by_cases h2 : u.balance < amount
      · rw [if_pos h2]; exact ⟨hu, ht, hw⟩
      · rw [if_neg h2]
        refine ⟨?_, ht, wdAmountsNonneg_append hw (le_trans hmin (not_lt.mp h1))⟩
        apply usersNonneg_updateA hu
        intro v hv
        rw [hlook] at hv
        injection hv with hv
        subst hv
        exact sub_nonneg.mpr (not_lt.mp h2)

theorem nonnegState_handle_withdrawal_action (owner_id actor : String) (a : WAction)
    (wid uid : String) (st : DB) (h : nonnegState st) :
    nonnegState (handle_withdrawal_action owner_id actor a wid uid st).1 := by
  obtain ⟨hu, ht, hw⟩ := h
  unfold handle_withdrawal_action
  by_cases hadm : is_admin owner_id actor st.users = false
  · rw [if_pos hadm]; exact ⟨hu, ht, hw⟩
  · rw [if_neg hadm]
    cases hlook : lookupA st.withdrawals wid with
    | none => exact ⟨hu, ht, hw⟩
    | some w =>
      dsimp only
      by_cases hpend : w.status ≠ Status.pending
      · rw [if_pos hpend]; exact ⟨hu, ht, hw⟩
      · rw [if_neg hpend]
        cases a with
        | apr => exact ⟨hu, ht, wdAmountsNonneg_updateA hw (fun w0 => rfl)⟩
        | rej =>
          refine ⟨?_, ht, wdAmountsNonneg_updateA hw (fun w0 => rfl)⟩
          exact usersNonneg_credit hu (hw _ (lookupA_mem hlook))

theorem nonnegState_processReview (now : Int) (app_id : String) (r : Review)
    (st : DB) (h : nonnegState st) : nonnegState (processReview now app_id r st) := by
  obtain ⟨hu, ht, hw⟩ := h
  unfold processReview
  by_cases h1 : r.at_time < now - 48 * 3600
  · rw [if_pos h1]; exact ⟨hu, ht, hw⟩
  · rw [if_neg h1]
    by_cases h2 : r.reviewId ∈ st.seen
    · rw [if_pos h2]; exact ⟨hu, ht, hw⟩
    · rw [if_neg h2]
      dsimp only
      by_cases h3 : r.score = 5
      · rw [if_pos h3]
        cases hm : findMatch app_id r.userName st.tasks with
        | none => exact ⟨hu, ht, hw⟩
        | some p =>
          obtain ⟨tid, t⟩ := p
          dsimp only
          refine ⟨?_, taskPricesNonneg_updateA ht (fun t0 => rfl), hw⟩
          apply usersNonneg_updateA hu
          intro v hv
          exact add_nonneg (hu _ (lookupA_mem hv)) (ht _ (findMatch_mem hm).1)
      · rw [if_neg h3]; exact ⟨hu, ht, hw⟩

theorem nonnegState_processReviews (now : Int) (app_id : String)
    (rs : List Review) (st : DB) (h : nonnegState st) :
    nonnegState (processReviews now app_id rs st) := by
  induction rs generalizing st with
  | nil => exact h
  | cons r rs ih => exact ih _ (nonnegState_processReview now app_id r st h)

theorem nonnegState_runCycle (now : Int) (apps : List (String × List Review))
    (st : DB) (h : nonnegState st) : nonnegState (runCycle now apps st) := by
  induction apps generalizing st with
  | nil => exact h
  | cons p apps ih => exact ih _ (nonnegState_processReviews now p.1 p.2 st h)

theorem nonnegState_applyOp (owner_id : String) (st : DB) (o : Op)
    (hop : goodOp o = true) (h : nonnegState st) :
    nonnegState (applyOp owner_id st o) := by
  cases o with
  | opCreateUser uid fn ref now cfg => exact nonnegState_create_user owner_id uid fn ref now cfg st h
  | opSaveTask uid tid app rname email device screenshot now cfg =>
    exact nonnegState_save_task uid tid app rname email device screenshot now cfg st
      (by simpa [goodOp] using hop) h
  | opTaskAction actor a tid uid now => exact nonnegState_handle_task_action owner_id actor a tid uid now st h
  | opWithdraw uid un wid m n amount now cfg =>
    exact nonnegState_withdraw_amount uid un wid m n amount now cfg st
      (by simpa [goodOp] using hop) h
  | opWdAction actor a wid uid => exact nonnegState_handle_withdrawal_action owner_id actor a wid uid st h
  | opReconcile now apps => exact nonnegState_runCycle now apps st h
  | opBalUpdate uid amt a => simp [goodOp] at hop

theorem nonnegState_applyOps (owner_id : String) (ops : List Op) :
    ∀ st : DB, (∀ o ∈ ops, goodOp o = true) → nonnegState st →
      nonnegState (applyOps owner_id ops st) := by
  induction ops with
  | nil =>
    intro st _ h
    exact h
  | cons o ops ih =>
    intro st hops h
    exact ih (applyOp owner_id st o)
      (fun o2 h2 => hops o2 (List.mem_cons_of_mem _ h2))
      (nonnegState_applyOp owner_id st o (hops o (List.mem_cons_self _ _)) h)

/-! ### Concrete records used by witnesses and counterexamples -/

/-- The default money configuration (DEFAULT_CONFIG of main.py). -/
def exCfg : Config := { task_price := 20, referral_bonus := 5, min_withdraw := 50 }

/-- A plain user with some balance. -/
def exUser2 : User :=
  { name := "U", balance := 90, total_tasks := 1, referrer := none,
    is_blocked := false, is_admin := false }

/-- A task already resolved to approved. -/
def exTaskApproved : Task :=
  { user_id := "2", app_id := "app1", review_name := "n", email := "e",
    device := "d", screenshot := "s", status := Status.approved,
    submitted_at := 0, price := 20 }

/-- A withdrawal already resolved to rejected. -/
def exWdRejected : Withdrawal :=
  { user_id := "2", user_name := "U", amount := 60, method := "Bkash",
    number := "017", status := Status.rejected, time := 0 }

/-- A state with one user, one resolved task and one resolved withdrawal. -/
def stC1 : DB :=
  { users := [("2", exUser2)], tasks := [("t1", exTaskApproved)],
    withdrawals := [("w1", exWdRejected)], seen := [], notifications := 0 }

/-- A pending task submitted at time 0 whose reviewer name matches nothing. -/
def taskStale : Task :=
  { user_id := "2", app_id := "app1", review_name := "nomatch", email := "e",
    device := "d", screenshot := "s", status := Status.pending,
    submitted_at := 0, price := 20 }

/-- A state holding only the stale pending task. -/
def stC4 : DB :=
  { users := [("2", exUser2)], tasks := [("t1", taskStale)],
    withdrawals := [], seen := [], notifications := 0 }

/-- A task already resolved to rejected. -/
def exTaskRejected : Task :=
  { user_id := "2", app_id := "app1", review_name := "n", email := "e",
    device := "d", screenshot := "s", status := Status.rejected,
    submitted_at := 0, price := 20 }

/-- A state holding one rejected task. -/
def stC4w : DB :=
  { users := [], tasks := [("t9", exTaskRejected)],
    withdrawals := [], seen := [], notifications := 0 }

/-- A review posted at time 0 (far older than 48 hours at time 200000). -/
def revOld : Review :=
  { reviewId := "r0", userName := "x", score := 5, content := "c", at_time := 0 }

/-! ### Claim C1 -/

/-- C1: for every task and every withdrawal whose status is not pending, a
manual approve or reject performs no mutation at all (the returned state is
the input state, so every record, balance and counter is unchanged) and the
outcome reported to the caller is the "already processed" outcome, not an
error. -/
theorem already_processed_is_noop
    (owner_id actor task_id tuid wd_id wuid : String) (now : Int)
    (ta : TAction) (wa : WAction) (st : DB) (t : Task) (w : Withdrawal)
    (hadmin : is_admin owner_id actor st.users = true)
    (ht : lookupA st.tasks task_id = some t) (hts : t.status ≠ Status.pending)
    (hw : lookupA st.withdrawals wd_id = some w) (hws : w.status ≠ Status.pending) :
    handle_task_action owner_id actor ta task_id tuid now st
      = (st, ActionOutcome.alreadyProcessed t.status)
    ∧ handle_withdrawal_action owner_id actor wa wd_id wuid st
      = (st, ActionOutcome.alreadyProcessed w.status) := by
  constructor
  · unfold handle_task_action
    rw [hadmin, if_neg (by simp), ht]
    dsimp only
    rw [if_pos hts]
  · unfold handle_withdrawal_action
    rw [hadmin, if_neg (by simp), hw]
    dsimp only
    rw [if_pos hws]

/-- C1 witness: the owner acting on an approved task and a rejected
withdrawal leaves the concrete state untouched and reports both as already
processed. -/
theorem already_processed_is_noop_witness :
    handle_task_action "9" "9" TAction.apr "t1" "2" 0 stC1
      = (stC1, ActionOutcome.alreadyProcessed Status.approved)
    ∧ handle_withdrawal_action "9" "9" WAction.rej "w1" "2" stC1
      = (stC1, ActionOutcome.alreadyProcessed Status.rejected) :=
  already_processed_is_noop "9" "9" "t1" "2" "w1" "2" 0 TAction.apr WAction.rej
    stC1 exTaskApproved exWdRejected (by decide) (by decide) (by decide)
    (by decide) (by decide)

/-! ### Claim C4 -/

/-- C4 counterexample: a pending task submitted at time 0, far older than
the 48-hour review-freshness threshold (and any plausible age threshold),
with no matching review in any cycle, after a full reconciliation cycle at
time 1000000: the cycle is the identity on the state and the task is still
pending — no sweep transitions it to rejected, contradicting the claim that
every cycle rejects such tasks. -/
theorem stale_pending_task_not_swept_cx :
    runCycle 1000000 [("app1", [])] stC4 = stC4
    ∧ (lookupA stC4.tasks "t1").map Task.status = some Status.pending
    ∧ (lookupA stC4.tasks "t1").map Task.submitted_at = some 0
    ∧ (48 * 3600 : Int) < 1000000 - 0 := by
  exact ⟨rfl, by decide, by decide, by decide⟩

/-- C4 amended: `run_automation` contains no expiry sweep at all — a
reconciliation cycle never transitions any task to rejected, so any task
seen as rejected after a cycle was already rejected before it; a pending
task older than any age threshold with no matching review simply stays
pending. -/
theorem reconciliation_never_rejects
    (now : Int) (apps : List (String × List Review)) (st : DB)
    (k : String) (t2 : Task)
    (h : lookupA (runCycle now apps st).tasks k = some t2)
    (hr : t2.status = Status.rejected) :
    ∃ t1, lookupA st.tasks k = some t1 ∧ t1.status = Status.rejected :=
  noNewRejections_runCycle now apps st k t2 h hr

/-- C4 witness: a task rejected before an (empty) cycle accounts for the
rejected task seen after it. -/
theorem reconciliation_never_rejects_witness :
    ∃ t1, lookupA stC4w.tasks "t9" = some t1 ∧ t1.status = Status.rejected :=
  reconciliation_never_rejects 0 [] stC4w "t9" exTaskRejected (by decide) (by decide)

/-! ### Claim C7 -/

/-- C7 counterexample: with workStart 15:30 (930 minutes) and workEnd 23:00
(1380 minutes), the code accepts the instant 23:00 itself, while the claimed
half-open window `[workStart, workEnd)` excludes it. -/
theorem working_hour_boundary_cx :
    is_working_hour 930 1380 1380 = true ∧ ¬ (930 ≤ 1380 ∧ 1380 < 1380) := by
  decide

/-- C7 amended: the working-hours check accepts t iff t lies in the CLOSED
window `[workStart, workEnd]` when workStart < workEnd, and otherwise
(wrapping, or workStart = workEnd) iff t ≥ workStart or t ≤ workEnd — both
end bounds inclusive, unlike the claimed half-open window. -/
theorem working_hour_characterization (ws we t : Nat) :
    is_working_hour ws we t = true ↔
      (if ws < we then ws ≤ t ∧ t ≤ we else (ws ≤ t ∨ t ≤ we)) := by
  unfold is_working_hour
  by_cases h : ws < we
  · simp [h]
  · simp [h]

/-! ### Claim C8 -/

/-- C8 counterexample: the admin balance adjustment `user_balance_update`
is one of the claim's operations, and a single "cut 100" on a user whose
balance is 90 drives the balance to -10 < 0. -/
theorem admin_cut_overdraws_cx :
    (lookupA (applyOps "9" [Op.opBalUpdate "2" 100 BalAction.cut] stC1).users "2").map
        User.balance = some (-10)
    ∧ ¬ (0 : Rat) ≤ -10 := by
  constructor
  · show (lookupA (user_balance_update "2" 100 BalAction.cut stC1.users) "2").map
        User.balance = some (-10)
    norm_num [user_balance_update, stC1, exUser2, updateA, lookupA]
  · decide

/-- C8 amended: sequential operations of the core EXCLUDING the unguarded
admin balance adjustment (user creation with referral credit, task
submission and manual or automatic resolution, withdrawal creation and
resolution, reconciliation cycles), run under config snapshots whose task
price and withdrawal minimum are non-negative, keep every stored balance
non-negative (together with every stored task price and withdrawal amount);
the admin adjustment can overdraw, as the counterexample shows. -/
theorem sequential_balance_nonneg (owner_id : String) (ops : List Op) :
    ∀ st : DB, (∀ o ∈ ops, goodOp o = true) → nonnegState st →
      nonnegState (applyOps owner_id ops st) :=
  nonnegState_applyOps owner_id ops

/-- C8 witness: a concrete six-operation run (create a referred user, submit
a task, approve it manually, create a withdrawal, reject it, run a
reconciliation cycle) from a concrete non-negative state stays
non-negative. -/
theorem sequential_balance_nonneg_witness :
    nonnegState (applyOps "9"
      [Op.opCreateUser "3" "C" (some "2") 0 exCfg,
       Op.opSaveTask "2" "t7" "app1" "Alice" "e" "d" "s" 10 exCfg,
       Op.opTaskAction "9" TAction.apr "t7" "2" 20,
       Op.opWithdraw "2" "U" "w7" "Bkash" "017" 60 30 exCfg,
       Op.opWdAction "9" WAction.rej "w7" "2",
       Op.opReconcile 40 [("app1", [])]] stC1) :=
  sequential_balance_nonneg "9"
    [Op.opCreateUser "3" "C" (some "2") 0 exCfg,
     Op.opSaveTask "2" "t7" "app1" "Alice" "e" "d" "s" 10 exCfg,
     Op.opTaskAction "9" TAction.apr "t7" "2" 20,
     Op.opWithdraw "2" "U" "w7" "Bkash" "017" 60 30 exCfg,
     Op.opWdAction "9" WAction.rej "w7" "2",
     Op.opReconcile 40 [("app1", [])]] stC1 (by decide)
    (by
      refine ⟨?_, ?_, ?_⟩ <;>
        norm_num [usersNonneg, taskPricesNonneg, wdAmountsNonneg, stC1,
          exUser2, exTaskApproved, exWdRejected])

/-! ### Claim C9 -/

/-- C9: a fetched review older than 48 hours is skipped entirely by the
reconciliation step — the state is returned unchanged, so it is not added
to the seen set, produces no notification and approves no task, even on its
first fetch. -/
theorem stale_review_skipped (now : Int) (app_id : String) (r : Review)
    (st : DB) (h : r.at_time < now - 48 * 3600) :
    processReview now app_id r st = st := by
  unfold processReview
  rw [if_pos h]

/-- C9 witness: a 5-star review posted at time 0 processed at time 200000
(more than 48 hours later) leaves the concrete state unchanged. -/
theorem stale_review_skipped_witness :
    processReview 200000 "app1" revOld stC4 = stC4 :=
  stale_review_skipped 200000 "app1" revOld stC4 (by decide)

/-! ### Claim C10 -/

/-- C10: `create_user` on a user id that already has a document is a
complete no-op — the user store is returned unchanged, so the existing
record keeps its balance, counters and flags, and nobody receives a
referral credit; repeated /start invocations (which call `create_user`
first, main.py:238-242) are idempotent. -/
theorem create_user_idempotent
    (owner_id uid first_name : String) (ref : Option String) (now : Int)
    (cfg : Config) (users : List (String × User)) (u : User)
    (h : lookupA users uid = some u) :
    create_user owner_id uid first_name ref now cfg users = users := by
  unfold create_user
  rw [h]

/-- C10 witness: re-running /start with a referral argument for the existing
user "2" (balance 90) changes nothing. -/
theorem create_user_idempotent_witness :
    create_user "9" "2" "Bob" (some "1") 5 exCfg [("2", exUser2)]
      = [("2", exUser2)] :=
  create_user_idempotent "9" "2" "Bob" (some "1") 5 exCfg [("2", exUser2)]
    exUser2 (by decide)

/-! ### Claim C2 -/

/-- A referrer user with balance 0. -/
def uRef : User :=
  { name := "R", balance := 0, total_tasks := 0, referrer := none,
    is_blocked := false, is_admin := false }

/-- A task owner referred by user "1". -/
def uOwn : User :=
  { name := "O", balance := 0, total_tasks := 0, referrer := some "1",
    is_blocked := false, is_admin := false }

/-- A pending task of the referred owner "2". -/
def tC2 : Task :=
  { user_id := "2", app_id := "a", review_name := "n", email := "e",
    device := "d", screenshot := "s", status := Status.pending,
    submitted_at := 0, price := 20 }

/-- A state where the pending task's owner has a referrer on record. -/
def stC2 : DB :=
  { users := [("1", uRef), ("2", uOwn)], tasks := [("t1", tC2)],
    withdrawals := [], seen := [], notifications := 0 }

/-- C2 counterexample: user "2" has referrer "1" on record, an admin
approval of the owner's pending task goes through — and the referrer's
balance stays 0.  Under the claim (every config snapshot here has
referralBonus 5 > 0, cf. DEFAULT_CONFIG) the referrer's balance would have
become 5; `handle_task_action` takes no config at all and credits no one
but the owner. -/
theorem approval_credits_no_referrer_cx :
    (lookupA stC2.users "2").map User.referrer = some (some "1")
    ∧ (handle_task_action "9" "9" TAction.apr "t1" "2" 7 stC2).2
        = ActionOutcome.done
    ∧ (lookupA (handle_task_action "9" "9" TAction.apr "t1" "2" 7 stC2).1.users "1").map
        User.balance = some 0 := by
  refine ⟨by decide, by decide, by decide⟩

/-- C2 amended: a task approval (manual or automatic) mutates no user other
than the task's owner — in particular it never credits the owner's referrer,
and it reads no config snapshot.  The referral bonus is instead applied
exactly once, at user-creation time: when a fresh user registers with a
valid digit-string referral id of an existing user and the current
snapshot's referralBonus is positive, that referrer's balance is credited
`referral_bonus` exactly once. -/
theorem referral_bonus_on_creation_only
    (owner_id actor tid uid : String) (now : Int) (st : DB) (t : Task)
    (hadmin : is_admin owner_id actor st.users = true)
    (ht : lookupA st.tasks tid = some t) (hp : t.status = Status.pending) :
    (∀ k, k ≠ uid →
      lookupA (handle_task_action owner_id actor TAction.apr tid uid now st).1.users k
        = lookupA st.users k)
    ∧ (∀ (now2 : Int) (app_id2 : String) (rv : Review) (tid2 : String) (t2 : Task),
        findMatch app_id2 rv.userName st.tasks = some (tid2, t2) →
        ∀ k, k ≠ t2.user_id →
          lookupA (processReview now2 app_id2 rv st).users k = lookupA st.users k)
    ∧ (∀ (uid2 name2 rid : String) (now2 : Int) (cfg2 : Config)
          (users : List (String × User)) (ru : User),
        lookupA users uid2 = none → pyIsDigit rid = true → rid ≠ uid2 →
        lookupA users rid = some ru → 0 < cfg2.referral_bonus →
        (lookupA (create_user owner_id uid2 name2 (some rid) now2 cfg2 users) rid).map
            User.balance = some (ru.balance + cfg2.referral_bonus)) := by
  refine ⟨?_, ?_, ?_⟩
  · intro k hk
    unfold handle_task_action
    rw [hadmin, if_neg (by simp), ht]
    dsimp only
    rw [if_neg (by simp [hp])]
    dsimp only
    rw [lookupA_updateA, if_neg (fun he => hk he.symm)]
  · intro now2 app2 rv tid2 t2 hm k hk
    unfold processReview
    by_cases h1 : rv.at_time < now2 - 48 * 3600
    · rw [if_pos h1]
    · rw [if_neg h1]
      by_cases h2 : rv.reviewId ∈ st.seen
      · rw [if_pos h2]
      · rw [if_neg h2]
        dsimp only
        by_cases h3 : rv.score = 5
        · rw [if_pos h3, hm]
          dsimp only
          rw [lookupA_updateA, if_neg (fun he => hk he.symm)]
        · rw [if_neg h3]
  · intro uid2 name2 rid now2 cfg2 users ru h0 hdig hne hru hpos
    unfold create_user
    rw [h0]
    dsimp only
    rw [if_pos ⟨hdig, hne, hpos⟩, lookupA_updateA, if_pos rfl, lookupA_append, hru]
    rfl

/-- C2 witness: the amended statement instantiated at the concrete
referred-owner state. -/
theorem referral_bonus_on_creation_only_witness :
    (∀ k, k ≠ "2" →
      lookupA (handle_task_action "9" "9" TAction.apr "t1" "2" 7 stC2).1.users k
        = lookupA stC2.users k)
    ∧ (∀ (now2 : Int) (app_id2 : String) (rv : Review) (tid2 : String) (t2 : Task),
        findMatch app_id2 rv.userName stC2.tasks = some (tid2, t2) →
        ∀ k, k ≠ t2.user_id →
          lookupA (processReview now2 app_id2 rv stC2).users k = lookupA stC2.users k)
    ∧ (∀ (uid2 name2 rid : String) (now2 : Int) (cfg2 : Config)
          (users : List (String × User)) (ru : User),
        lookupA users uid2 = none → pyIsDigit rid = true → rid ≠ uid2 →
        lookupA users rid = some ru → 0 < cfg2.referral_bonus →
        (lookupA (create_user "9" uid2 name2 (some rid) now2 cfg2 users) rid).map
            User.balance = some (ru.balance + cfg2.referral_bonus)) :=
  referral_bonus_on_creation_only "9" "9" "t1" "2" 7 stC2 tC2
    (by decide) (by decide) (by decide)

/-! ### Branch equations for one reconciliation step -/

theorem processReview_eq_nonfive (now : Int) (app_id : String) (r : Review)
    (st : DB) (hfresh : ¬ r.at_time < now - 48 * 3600)
    (hseen : r.reviewId ∉ st.seen) (h5 : r.score ≠ 5) :
    processReview now app_id r st =
      { st with notifications := st.notifications + 1, seen := r.reviewId :: st.seen } := by
  unfold processReview
  rw [if_neg hfresh, if_neg hseen]
  dsimp only
  rw [if_neg h5]

theorem processReview_eq_nomatch (now : Int) (app_id : String) (r : Review)
    (st : DB) (hfresh : ¬ r.at_time < now - 48 * 3600)
    (hseen : r.reviewId ∉ st.seen)
    (hm : findMatch app_id r.userName st.tasks = none) :
    processReview now app_id r st =
      { st with notifications := st.notifications + 1, seen := r.reviewId :: st.seen } := by
  unfold processReview
  rw [if_neg hfresh, if_neg hseen]
  dsimp only
  by_cases h5 : r.score = 5
  · rw [if_pos h5, hm]
  · rw [if_neg h5]

theorem processReview_eq_approve (now : Int) (app_id : String) (r : Review)
    (st : DB) (tid : String) (t : Task)
    (hfresh : ¬ r.at_time < now - 48 * 3600) (hseen : r.reviewId ∉ st.seen)
    (h5 : r.score = 5) (hm : findMatch app_id r.userName st.tasks = some (tid, t)) :
    processReview now app_id r st =
      { st with
          tasks := updateA st.tasks tid
            (fun t0 => { t0 with status := Status.approved, approved_at := some now })
          users := updateA st.users t.user_id
            (fun u => { u with balance := u.balance + t.price,
                               total_tasks := u.total_tasks + 1 })
          seen := r.reviewId :: st.seen
          notifications := st.notifications + 1 + 2 } := by
  unfold processReview
  rw [if_neg hfresh, if_neg hseen]
  dsimp only
  rw [if_pos h5, hm]

/-! ### Claim C5 -/

/-- The owner of the matching pending task of claim C5's scenario. -/
def uC5 : User :=
  { name := "A", balance := 0, total_tasks := 0, referrer := none,
    is_blocked := false, is_admin := false }

/-- A pending task whose submitter name "Alice " matches the reviewer
"alice" case-insensitively after stripping. -/
def taskC5 : Task :=
  { user_id := "2", app_id := "app1", review_name := "Alice ", email := "e",
    device := "d", screenshot := "s", status := Status.pending,
    submitted_at := 0, price := 20 }

/-- State with the single matching pending task. -/
def stC5 : DB :=
  { users := [("2", uC5)], tasks := [("t1", taskC5)], withdrawals := [],
    seen := [], notifications := 0 }

/-- A fresh unseen 5-star review by "alice". -/
def revC5 : Review :=
  { reviewId := "r1", userName := "alice", score := 5, content := "nice",
    at_time := 100 }

/-- C5 counterexample: the auto-approval does fire on this concrete state
(the task becomes approved), but the approved task's `autoApproved` field is
still absent (`none`), not `true` — no code path of `run_automation` writes
such a field, contradicting the claim's "with autoApproved = true". -/
theorem auto_approval_no_flag_cx :
    (lookupA (processReview 100 "app1" revC5 stC5).tasks "t1").map Task.status
      = some Status.approved
    ∧ (lookupA (processReview 100 "app1" revC5 stC5).tasks "t1").map Task.auto_approved
      = some none := by
  refine ⟨by decide, by decide⟩

/-- C5 amended: for an unseen review at most 48 hours old, the
reconciliation step approves a task only when the rating is exactly 5; the
approved task is the first pending task of the app whose submitter name
equals the reviewer's display name after lowercasing and stripping
(`findMatch`); at most one task changes (a single conditional update of
that one document); the compound update and the owner's balance/counter
credit are exactly those of the manual approval path — but no `autoApproved`
field is written (the field stays absent). -/
theorem auto_approval_characterization
    (now : Int) (app_id : String) (r : Review) (st : DB)
    (owner_id actor : String)
    (hnd : (st.tasks.map Prod.fst).Nodup)
    (hfresh : ¬ r.at_time < now - 48 * 3600)
    (hseen : r.reviewId ∉ st.seen) :
    (r.score ≠ 5 →
      (processReview now app_id r st).tasks = st.tasks
      ∧ (processReview now app_id r st).users = st.users)
    ∧ (findMatch app_id r.userName st.tasks = none →
      (processReview now app_id r st).tasks = st.tasks
      ∧ (processReview now app_id r st).users = st.users)
    ∧ (∀ (tid : String) (t : Task), r.score = 5 →
        findMatch app_id r.userName st.tasks = some (tid, t) →
        (processReview now app_id r st).tasks
          = updateA st.tasks tid
              (fun t0 => { t0 with status := Status.approved, approved_at := some now })
        ∧ (processReview now app_id r st).users
          = updateA st.users t.user_id
              (fun u => { u with balance := u.balance + t.price,
                                 total_tasks := u.total_tasks + 1 })
        ∧ (is_admin owner_id actor st.users = true →
            (handle_task_action owner_id actor TAction.apr tid t.user_id now st).1.tasks
              = (processReview now app_id r st).tasks
            ∧ (handle_task_action owner_id actor TAction.apr tid t.user_id now st).1.users
              = (processReview now app_id r st).users)
        ∧ (lookupA (processReview now app_id r st).tasks tid).map Task.auto_approved
            = some t.auto_approved) := by
  refine ⟨?_, ?_, ?_⟩
  · intro h5
    rw [processReview_eq_nonfive now app_id r st hfresh hseen h5]
    exact ⟨rfl, rfl⟩
  · intro hm
    by_cases h5 : r.score = 5
    · rw [processReview_eq_nomatch now app_id r st hfresh hseen hm]
      exact ⟨rfl, rfl⟩
    · rw [processReview_eq_nonfive now app_id r st hfresh hseen h5]
      exact ⟨rfl, rfl⟩
  · intro tid t h5 hm
    rw [processReview_eq_approve now app_id r st tid t hfresh hseen h5 hm]
    have hlt : lookupA st.tasks tid = some t := findMatch_lookupA hnd hm
    have hpend : t.status = Status.pending :=
      matchesReview_pending (findMatch_mem hm).2
    refine ⟨rfl, rfl, ?_, ?_⟩
    · intro hadm
      unfold handle_task_action
      rw [hadm, if_neg (by simp), hlt]
      dsimp only
      rw [if_neg (by simp [hpend])]
      exact ⟨rfl, rfl⟩
    · dsimp only
      rw [lookupA_updateA, if_pos rfl, hlt]
      rfl

/-- C5 witness: the amended statement at the concrete matching state
("Alice " vs reviewer "alice", rating 5, review 100 seconds old). -/
theorem auto_approval_characterization_witness :
    ((revC5.score ≠ 5 →
      (processReview 100 "app1" revC5 stC5).tasks = stC5.tasks
      ∧ (processReview 100 "app1" revC5 stC5).users = stC5.users)
    ∧ (findMatch "app1" revC5.userName stC5.tasks = none →
      (processReview 100 "app1" revC5 stC5).tasks = stC5.tasks
      ∧ (processReview 100 "app1" revC5 stC5).users = stC5.users)
    ∧ (∀ (tid : String) (t : Task), revC5.score = 5 →
        findMatch "app1" revC5.userName stC5.tasks = some (tid, t) →
        (processReview 100 "app1" revC5 stC5).tasks
          = updateA stC5.tasks tid
              (fun t0 => { t0 with status := Status.approved, approved_at := some 100 })
        ∧ (processReview 100 "app1" revC5 stC5).users
          = updateA stC5.users t.user_id
              (fun u => { u with balance := u.balance + t.price,
                                 total_tasks := u.total_tasks + 1 })
        ∧ (is_admin "9" "9" stC5.users = true →
            (handle_task_action "9" "9" TAction.apr tid t.user_id 100 stC5).1.tasks
              = (processReview 100 "app1" revC5 stC5).tasks
            ∧ (handle_task_action "9" "9" TAction.apr tid t.user_id 100 stC5).1.users
              = (processReview 100 "app1" revC5 stC5).users)
        ∧ (lookupA (processReview 100 "app1" revC5 stC5).tasks tid).map Task.auto_approved
            = some t.auto_approved)) :=
  auto_approval_characterization 100 "app1" revC5 stC5 "9" "9"
    (by decide) (by decide) (by decide)

/-! ### Claim C6 -/

/-- C6: the price stored at submission is the `task_price` of the config
snapshot read at that moment; no later operation (manual action or
reconciliation cycle) ever changes any stored price; and a manual approval
credits exactly the stored price — `handle_task_action` takes no config
argument at all, so a `task_price` change between submission and approval
cannot change the credited amount. -/
theorem price_snapshot_roundtrip
    (uid tid app_id rname email device screenshot : String) (now : Int)
    (cfg1 : Config) (tasks0 : List (String × Task))
    (hfresh : lookupA tasks0 tid = none) :
    (lookupA (save_task uid tid app_id rname email device screenshot now cfg1 tasks0) tid).map
        Task.price = some cfg1.task_price
    ∧ (∀ (owner_id actor : String) (a : TAction) (tid2 uid2 : String)
          (now2 : Int) (st2 : DB),
        pricesPreserved st2.tasks
          (handle_task_action owner_id actor a tid2 uid2 now2 st2).1.tasks)
    ∧ (∀ (now2 : Int) (apps : List (String × List Review)) (st2 : DB),
        pricesPreserved st2.tasks (runCycle now2 apps st2).tasks)
    ∧ (∀ (owner_id actor tid2 uid2 : String) (now2 : Int) (st2 : DB)
          (t : Task) (u : User),
        is_admin owner_id actor st2.users = true →
        lookupA st2.tasks tid2 = some t → t.status = Status.pending →
        lookupA st2.users uid2 = some u →
        (lookupA (handle_task_action owner_id actor TAction.apr tid2 uid2 now2 st2).1.users uid2).map
            User.balance = some (u.balance + t.price)) := by
  refine ⟨?_, ?_, ?_, ?_⟩
  · unfold save_task
    rw [lookupA_append, hfresh]
    dsimp only
    rw [lookupA_singleton]
    rfl
  · intro owner_id actor a tid2 uid2 now2 st2
    exact pricesPreserved_handle_task_action owner_id actor a tid2 uid2 now2 st2
  · intro now2 apps st2
    exact pricesPreserved_runCycle now2 apps st2
  · intro owner_id actor tid2 uid2 now2 st2 t u hadm hlt hpend hlu
    unfold handle_task_action
    rw [hadm, if_neg (by simp), hlt]
    dsimp only
    rw [if_neg (by simp [hpend])]
    dsimp only
    rw [lookupA_updateA, if_pos rfl, hlu]
    rfl

/-- C6 witness: the statement at a concrete submission into an empty task
store under the default config. -/
theorem price_snapshot_roundtrip_witness :
    (lookupA (save_task "2" "t7" "app1" "n" "e" "d" "s" 0 exCfg []) "t7").map
        Task.price = some exCfg.task_price
    ∧ (∀ (owner_id actor : String) (a : TAction) (tid2 uid2 : String)
          (now2 : Int) (st2 : DB),
        pricesPreserved st2.tasks
          (handle_task_action owner_id actor a tid2 uid2 now2 st2).1.tasks)
    ∧ (∀ (now2 : Int) (apps : List (String × List Review)) (st2 : DB),
        pricesPreserved st2.tasks (runCycle now2 apps st2).tasks)
    ∧ (∀ (owner_id actor tid2 uid2 : String) (now2 : Int) (st2 : DB)
          (t : Task) (u : User),
        is_admin owner_id actor st2.users = true →
        lookupA st2.tasks tid2 = some t → t.status = Status.pending →
        lookupA st2.users uid2 = some u →
        (lookupA (handle_task_action owner_id actor TAction.apr tid2 uid2 now2 st2).1.users uid2).map
            User.balance = some (u.balance + t.price)) :=
  price_snapshot_roundtrip "2" "t7" "app1" "n" "e" "d" "s" 0 exCfg [] (by decide)

/-! ### Claim C3 -/

/-- C3: creating a withdrawal of amount A — permitted exactly when
A ≥ minWithdraw and A ≤ the current balance, the two failing guards
returning the untouched state — immediately debits exactly A from the
owner's balance and stores a pending record carrying A; a later manual
rejection re-credits exactly A, restoring the pre-request balance; a later
manual approval mutates no balance at all. -/
theorem withdrawal_escrow_roundtrip
    (owner_id actor uid uname wid method number : String) (amount : Rat)
    (now : Int) (cfg : Config) (st : DB) (u : User)
    (hu : lookupA st.users uid = some u)
    (hmin : cfg.min_withdraw ≤ amount) (hbal : amount ≤ u.balance)
    (hfresh : lookupA st.withdrawals wid = none)
    (hadmin : is_admin owner_id actor st.users = true) :
    (withdraw_amount uid uname wid method number amount now cfg st).2 = WOutcome.ok
    ∧ (lookupA (withdraw_amount uid uname wid method number amount now cfg st).1.users uid).map
        User.balance = some (u.balance - amount)
    ∧ lookupA (withdraw_amount uid uname wid method number amount now cfg st).1.withdrawals wid
        = some { user_id := uid, user_name := uname, amount := amount,
                 method := method, number := number, status := Status.pending,
                 time := now }
    ∧ (handle_withdrawal_action owner_id actor WAction.rej wid uid
        (withdraw_amount uid uname wid method number amount now cfg st).1).2
        = ActionOutcome.done
    ∧ (lookupA (handle_withdrawal_action owner_id actor WAction.rej wid uid
        (withdraw_amount uid uname wid method number amount now cfg st).1).1.users uid).map
        User.balance = some u.balance
    ∧ (handle_withdrawal_action owner_id actor WAction.apr wid uid
        (withdraw_amount uid uname wid method number amount now cfg st).1).2
        = ActionOutcome.done
    ∧ (handle_withdrawal_action owner_id actor WAction.apr wid uid
        (withdraw_amount uid uname wid method number amount now cfg st).1).1.users
        = (withdraw_amount uid uname wid method number amount now cfg st).1.users
    ∧ (∀ amount2 : Rat, amount2 < cfg.min_withdraw →
        withdraw_amount uid uname wid method number amount2 now cfg st
          = (st, WOutcome.belowMin))
    ∧ (∀ amount2 : Rat, ¬ amount2 < cfg.min_withdraw → u.balance < amount2 →
        withdraw_amount uid uname wid method number amount2 now cfg st
          = (st, WOutcome.insufficient)) := by
  have h1 : ¬ amount < cfg.min_withdraw := not_lt.mpr hmin
  have h2 : ¬ u.balance < amount := not_lt.mpr hbal
  have hwa : withdraw_amount uid uname wid method number amount now cfg st =
      ({ st with
          users := updateA st.users uid
            (fun v => { v with balance := v.balance - amount })
          withdrawals := st.withdrawals ++ [(wid,
            { user_id := uid, user_name := uname, amount := amount,
              method := method, number := number, status := Status.pending,
              time := now })]
          notifications := st.notifications + 1 }, WOutcome.ok) := by
    unfold withdraw_amount
    rw [if_neg h1, hu]
    dsimp only
    rw [if_neg h2]
  have hadmin1 : is_admin owner_id actor
      (updateA st.users uid (fun v => { v with balance := v.balance - amount })) = true := by
    rw [is_admin_updateA owner_id actor uid st.users
      (fun v => { v with balance := v.balance - amount }) (fun v => rfl), hadmin]
  have hlw1 : lookupA (st.withdrawals ++ [(wid,
      ({ user_id := uid, user_name := uname, amount := amount, method := method,
         number := number, status := Status.pending, time := now } : Withdrawal))]) wid
      = some { user_id := uid, user_name := uname, amount := amount,
               method := method, number := number, status := Status.pending,
               time := now } := by
    rw [lookupA_append, hfresh]
    dsimp only
    rw [lookupA_singleton]
  rw [hwa]
  dsimp only
  refine ⟨rfl, ?_, ?_, ?_, ?_, ?_, ?_, ?_, ?_⟩
  · rw [lookupA_updateA, if_pos rfl, hu]
    rfl
  · exact hlw1
  · unfold handle_withdrawal_action
    rw [hadmin1, if_neg (by simp), hlw1]
    dsimp only
    rw [if_neg (by simp)]
  · unfold handle_withdrawal_action
    rw [hadmin1, if_neg (by simp), hlw1]
    dsimp only
    rw [if_neg (by simp)]
    rw [lookupA_updateA, if_pos rfl, lookupA_updateA, if_pos rfl, hu]
    simp only [Option.map_some']
    rw [sub_add_cancel]
  · unfold handle_withdrawal_action
    rw [hadmin1, if_neg (by simp), hlw1]
    dsimp only
    rw [if_neg (by simp)]
  · unfold handle_withdrawal_action
    rw [hadmin1, if_neg (by simp), hlw1]
    dsimp only
    rw [if_neg (by simp)]
  · intro amount2 hlt
    unfold withdraw_amount
    rw [if_pos hlt]
  · intro amount2 hge hgt
    unfold withdraw_amount
    rw [if_neg hge, hu]
    dsimp only
    rw [if_pos hgt]

/-- The withdrawing user of the spec's third scenario (balance 150). -/
def uW3 : User :=
  { name := "W", balance := 150, total_tasks := 0, referrer := none,
    is_blocked := false, is_admin := false }

/-- State for the escrow round-trip scenario. -/
def stC3 : DB :=
  { users := [("7", uW3)], tasks := [], withdrawals := [], seen := [],
    notifications := 0 }

/-- C3 witness: the spec's scenario — balance 150, withdrawal of 100 under
minimum 50; the debit, the stored pending record, the re-credit on
rejection and the no-op approval, plus both failing guards. -/
theorem withdrawal_escrow_roundtrip_witness :
    (withdraw_amount "7" "W" "w9" "Bkash" "017" 100 5 exCfg stC3).2 = WOutcome.ok
    ∧ (lookupA (withdraw_amount "7" "W" "w9" "Bkash" "017" 100 5 exCfg stC3).1.users "7").map
        User.balance = some (uW3.balance - 100)
    ∧ lookupA (withdraw_amount "7" "W" "w9" "Bkash" "017" 100 5 exCfg stC3).1.withdrawals "w9"
        = some { user_id := "7", user_name := "W", amount := 100,
                 method := "Bkash", number := "017", status := Status.pending,
                 time := 5 }
    ∧ (handle_withdrawal_action "9" "9" WAction.rej "w9" "7"
        (withdraw_amount "7" "W" "w9" "Bkash" "017" 100 5 exCfg stC3).1).2
        = ActionOutcome.done
    ∧ (lookupA (handle_withdrawal_action "9" "9" WAction.rej "w9" "7"
        (withdraw_amount "7" "W" "w9" "Bkash" "017" 100 5 exCfg stC3).1).1.users "7").map
        User.balance = some uW3.balance
    ∧ (handle_withdrawal_action "9" "9" WAction.apr "w9" "7"
        (withdraw_amount "7" "W" "w9" "Bkash" "017" 100 5 exCfg stC3).1).2
        = ActionOutcome.done
    ∧ (handle_withdrawal_action "9" "9" WAction.apr "w9" "7"
        (withdraw_amount "7" "W" "w9" "Bkash" "017" 100 5 exCfg stC3).1).1.users
        = (withdraw_amount "7" "W" "w9" "Bkash" "017" 100 5 exCfg stC3).1.users
    ∧ (∀ amount2 : Rat, amount2 < exCfg.min_withdraw →
        withdraw_amount "7" "W" "w9" "Bkash" "017" amount2 5 exCfg stC3
          = (stC3, WOutcome.belowMin))
    ∧ (∀ amount2 : Rat, ¬ amount2 < exCfg.min_withdraw → uW3.balance < amount2 →
        withdraw_amount "7" "W" "w9" "Bkash" "017" amount2 5 exCfg stC3
          = (stC3, WOutcome.insufficient)) :=
  withdrawal_escrow_roundtrip "9" "9" "7" "W" "w9" "Bkash" "017" 100 5 exCfg
    stC3 uW3 (by decide) (by decide) (by decide) (by decide) (by decide)

end ReviewWork
